import Mathlib

/-!
Shallow embedding of `src/MapTileDownloader.py` (class `MapTileDownloader`).

The geometry of `download_map_region` / `build_row` is embedded over exact
rationals and integers: the Python floats that feed it are binary rationals,
`int()` on a non-negative value is the floor, and every derived quantity
(pixel corners, tile ranges, placement and crop rectangles) is integer
arithmetic on those floors.  The Web-Mercator projection
`lat_lon_to_tile_coords` is embedded over the reals.  Network fetches and
`cv2.imdecode` are modelled by their results: an `Option` shape for a decode
(`none` for any fetch/decode failure, which in the source manifests as
`cv2.imdecode` returning `None`), and an `Except` for `cv2.imwrite`.
-/

namespace MapTileDownloader

/-- Python `int()` applied to an exact rational: truncation toward zero. -/
def pyInt (q : ℚ) : ℤ := if q < 0 then -⌊-q⌋ else ⌊q⌋

/-- Source lines 161-165: the Web-Mercator projection of `download_map_region`.
`siny = min(max(sin(lat*pi/180), -0.9999), 0.9999)`,
`x = scale * (0.5 + lon/360)`,
`y = scale * (0.5 - log((1+siny)/(1-siny)) / (4*pi))`. -/
noncomputable def lat_lon_to_tile_coords (lat lon scale : ℝ) : ℝ × ℝ :=
  let siny := min (max (Real.sin (lat * Real.pi / 180)) (-0.9999)) 0.9999
  (scale * (0.5 + lon / 360),
   scale * (0.5 - Real.log ((1 + siny) / (1 - siny)) / (4 * Real.pi)))

/-- The inputs of the geometry part of `download_map_region`: the projected
corners (`tl_proj_x` etc., lines 170-171) and the probed tile size
(`tile_size_x`, `tile_size_y`, line 174). -/
structure Geometry where
  tl_proj_x : ℚ
  tl_proj_y : ℚ
  br_proj_x : ℚ
  br_proj_y : ℚ
  tile_size_x : ℤ
  tile_size_y : ℤ

namespace Geometry

variable (g : Geometry)

/-- Line 176: `tl_pixel_x = int(tl_proj_x * tile_size_x)`. -/
def tl_pixel_x : ℤ := pyInt (g.tl_proj_x * g.tile_size_x)

/-- Line 177: `tl_pixel_y = int(tl_proj_y * tile_size_y)`. -/
def tl_pixel_y : ℤ := pyInt (g.tl_proj_y * g.tile_size_y)

/-- Line 178: `br_pixel_x = int(br_proj_x * tile_size_x)`. -/
def br_pixel_x : ℤ := pyInt (g.br_proj_x * g.tile_size_x)

/-- Line 179: `br_pixel_y = int(br_proj_y * tile_size_y)`. -/
def br_pixel_y : ℤ := pyInt (g.br_proj_y * g.tile_size_y)

/-- Line 181: `tl_tile_x = int(tl_proj_x)`. -/
def tl_tile_x : ℤ := pyInt g.tl_proj_x

/-- Line 182: `tl_tile_y = int(tl_proj_y)`. -/
def tl_tile_y : ℤ := pyInt g.tl_proj_y

/-- Line 183: `br_tile_x = int(br_proj_x)`. -/
def br_tile_x : ℤ := pyInt g.br_proj_x

/-- Line 184: `br_tile_y = int(br_proj_y)`. -/
def br_tile_y : ℤ := pyInt g.br_proj_y

/-- Line 186: `img_w = abs(tl_pixel_x - br_pixel_x)`. -/
def img_w : ℤ := |g.tl_pixel_x - g.br_pixel_x|

/-- Line 187: `img_h = br_pixel_y - tl_pixel_y`. -/
def img_h : ℤ := g.br_pixel_y - g.tl_pixel_y

/-- Line 189: `tiles_total = (br_tile_x - tl_tile_x + 1) * (br_tile_y - tl_tile_y + 1)`. -/
def tiles_total : ℤ :=
  (g.br_tile_x - g.tl_tile_x + 1) * (g.br_tile_y - g.tl_tile_y + 1)

/-- Line 222: the x indices visited by `build_row`,
`range(tl_tile_x, br_tile_x + 1)` (inclusive of both ends). -/
def tileRangeX : Finset ℤ := Finset.Icc g.tl_tile_x g.br_tile_x

/-- Line 255: the row indices spawned by the stitcher,
`range(tl_tile_y, br_tile_y + 1)` (inclusive of both ends). -/
def tileRangeY : Finset ℤ := Finset.Icc g.tl_tile_y g.br_tile_y

/-- Line 229: `tl_rel_x = tile_x * tile_size_x - tl_pixel_x`. -/
def tl_rel_x (tileX : ℤ) : ℤ := tileX * g.tile_size_x - g.tl_pixel_x

/-- Line 230: `tl_rel_y = tile_y * tile_size_y - tl_pixel_y`. -/
def tl_rel_y (tileY : ℤ) : ℤ := tileY * g.tile_size_y - g.tl_pixel_y

/-- Line 231: `br_rel_x = tl_rel_x + tile_size_x`. -/
def br_rel_x (tileX : ℤ) : ℤ := g.tl_rel_x tileX + g.tile_size_x

/-- Line 232: `br_rel_y = tl_rel_y + tile_size_y`. -/
def br_rel_y (tileY : ℤ) : ℤ := g.tl_rel_y tileY + g.tile_size_y

/-- Line 235: `img_x_l = max(0, tl_rel_x)`. -/
def img_x_l (tileX : ℤ) : ℤ := max 0 (g.tl_rel_x tileX)

/-- Line 236: `img_x_r = min(img_w + 1, br_rel_x)`. -/
def img_x_r (tileX : ℤ) : ℤ := min (g.img_w + 1) (g.br_rel_x tileX)

/-- Line 237: `img_y_l = max(0, tl_rel_y)`. -/
def img_y_l (tileY : ℤ) : ℤ := max 0 (g.tl_rel_y tileY)

/-- Line 238: `img_y_r = min(img_h + 1, br_rel_y)`. -/
def img_y_r (tileY : ℤ) : ℤ := min (g.img_h + 1) (g.br_rel_y tileY)

/-- Line 241: `cr_x_l = max(0, -tl_rel_x)`. -/
def cr_x_l (tileX : ℤ) : ℤ := max 0 (-(g.tl_rel_x tileX))

/-- Line 242: `cr_x_r = tile_size_x + min(0, img_w - br_rel_x)`. -/
def cr_x_r (tileX : ℤ) : ℤ := g.tile_size_x + min 0 (g.img_w - g.br_rel_x tileX)

/-- Line 243: `cr_y_l = max(0, -tl_rel_y)`. -/
def cr_y_l (tileY : ℤ) : ℤ := max 0 (-(g.tl_rel_y tileY))

/-- Line 244: `cr_y_r = tile_size_y + min(0, img_h - br_rel_y)`. -/
def cr_y_r (tileY : ℤ) : ℤ := g.tile_size_y + min 0 (g.img_h - g.br_rel_y tileY)

/-- Line 250, left-hand side: the set of destination row indices written by
the slice `img[img_y_l:img_y_r, ...]` of the row task for `tileY`, read as a
half-open interval of its computed bounds. -/
def rowBand (tileY : ℤ) : Set ℤ := Set.Ico (g.img_y_l tileY) (g.img_y_r tileY)

end Geometry

/-- The caller contract of `download_map_region` as the spec records it: the
projected corners are non-negative and ordered (bottom-right south-east of
top-left, so its projected coordinates are at least the top-left ones), and
the probed tile dimensions are positive. -/
structure Geometry.Valid (g : Geometry) : Prop where
  tlx_nonneg : 0 ≤ g.tl_proj_x
  tly_nonneg : 0 ≤ g.tl_proj_y
  x_le : g.tl_proj_x ≤ g.br_proj_x
  y_le : g.tl_proj_y ≤ g.br_proj_y
  w_pos : 0 < g.tile_size_x
  h_pos : 0 < g.tile_size_y

/-- A concrete run: projected corners `(0, 0)` and `(1, 1)` (for instance
`zoom = 1`, top-left corner `lon = -180` at the Mercator limit and bottom-right
corner `lon = 0` on the equator) with 256-pixel square tiles. -/
def gEx1 : Geometry := ⟨0, 0, 1, 1, 256, 256⟩

/-- A concrete run with a fractional top-left projection: projected corners
`(1/2, 0)` and `(1, 1)` with 256-pixel square tiles (for instance `zoom = 0`
and top-left corner `lon = 0`). -/
def gEx2 : Geometry := ⟨1/2, 0, 1, 1, 256, 256⟩

/-- The number of indices selected by the slice `a[l:r]` on an axis of
length `n`, for non-negative bounds `l`, `r`: both are clamped to `n` and an
empty selection has length zero. -/
def npLen (l r n : ℤ) : ℤ := max 0 (min r n - min l n)

/-- The decoded shape of a tile as seen at source lines 114-116: `none` when
`cv2.imdecode` returned `None` (fetch gave a non-image body — non-2xx error
page, corrupt payload, unsupported format), otherwise
`some (height, width, channelsOpt)` where `channelsOpt` is `tile.shape[2]`
when the array has a third axis and `none` for a single-channel 2-D array. -/
abbrev DecodedShape := Option (ℕ × ℕ × Option ℕ)

/-- Source lines 93-120, `get_image_info` after the fetch and decode: on a
successful decode returns `(width, height, channels)` with
`height, width = tile.shape[:2]` and `channels = tile.shape[2] if
len(tile.shape) > 2 else 1`; when the decode failed returns `(256, 256, 1)`. -/
def get_image_info (decoded : DecodedShape) : ℕ × ℕ × ℕ :=
  match decoded with
  | some (h, w, c) => (w, h, c.getD 1)
  | none => (256, 256, 1)

/-- Source lines 222-250, the progress side of `build_row`: the loop walks the
row's tile x indices; only under `if tile is not None:` does it run
`self.tiles_current += 1` followed by `self.bar.update(...)`.  `decode x`
is the result of fetching and decoding tile `x` of this row; `cur` is the
entering value of `tiles_current`; the result is its value after the row. -/
def build_row_progress {α : Type} (decode : ℤ → Option α) :
    List ℤ → ℕ → ℕ
  | [], cur => cur
  | x :: rest, cur =>
      build_row_progress decode rest
        (if (decode x).isSome then cur + 1 else cur)

/-- Source lines 254-260: the stitcher runs one `build_row` per row index and
joins them all; the shared counter accumulates every row's updates. -/
def all_rows_progress {α : Type} (decode : ℤ → ℤ → Option α)
    (rows cols : List ℤ) : ℕ :=
  rows.foldl (fun cur y => build_row_progress (fun x => decode x y) cols cur) 0

/-- Source lines 263-269: the save step of `download_map_region`.  The
argument is the outcome of `cv2.imwrite` (`Except.error e` when it raised with
message `e`).  Returned are the messages printed; the step itself always
returns normally — the `except` clause prints the error and `return`s. -/
def save_image (write : Except String Unit) : List String :=
  match write with
  | Except.error e => ["Saving image as file...", "Error:", e]
  | Except.ok _ => ["Saving image as file...", "Done."]

/-- `download_map_region` seen from `main`: the save step never lets the
encoder failure escape, so the call completes normally with the printed
messages either way. -/
def download_region_outcome (write : Except String Unit) :
    Except String (List String) :=
  Except.ok (save_image write)

/-- Source lines 271-294: `main` returns 0 when its `try` body completes and
1 when an exception reaches its `except` clause; `sys.exit(main())` makes
that the process exit status. -/
def main_exit {α : Type} (run : Except String α) : ℕ :=
  match run with
  | Except.ok _ => 0
  | Except.error _ => 1

/-! Helper lemmas. -/

theorem pyInt_of_nonneg (q : ℚ) (h : 0 ≤ q) : pyInt q = ⌊q⌋ := by
  unfold pyInt
  rw [if_neg (not_lt.mpr h)]

theorem floor_int_mul_le (q : ℚ) (W : ℤ) (hW : 0 ≤ W) :
    ⌊q⌋ * W ≤ ⌊q * W⌋ := by
  rw [Int.le_floor]
  push_cast
  exact mul_le_mul_of_nonneg_right (Int.floor_le q) (by exact_mod_cast hW)

theorem floor_mul_int_lt (p : ℚ) (W : ℤ) (hW : 0 < W) :
    ⌊p * W⌋ - W < ⌊p⌋ * W := by
  have h1 : (p - 1) * W < (⌊p⌋ : ℚ) * W :=
    mul_lt_mul_of_pos_right (Int.sub_one_lt_floor p) (by exact_mod_cast hW)
  have h2 : (⌊p * W⌋ : ℚ) ≤ p * W := Int.floor_le _
  have h3 : ((⌊p * W⌋ - W : ℤ) : ℚ) < ((⌊p⌋ * W : ℤ) : ℚ) := by
    push_cast
    nlinarith
  exact_mod_cast h3

namespace Geometry

theorem tl_pixel_x_eq (g : Geometry) (hv : g.Valid) :
    g.tl_pixel_x = ⌊g.tl_proj_x * g.tile_size_x⌋ :=
  pyInt_of_nonneg _ (mul_nonneg hv.tlx_nonneg (by exact_mod_cast hv.w_pos.le))

theorem tl_pixel_y_eq (g : Geometry) (hv : g.Valid) :
    g.tl_pixel_y = ⌊g.tl_proj_y * g.tile_size_y⌋ :=
  pyInt_of_nonneg _ (mul_nonneg hv.tly_nonneg (by exact_mod_cast hv.h_pos.le))

theorem br_pixel_x_eq (g : Geometry) (hv : g.Valid) :
    g.br_pixel_x = ⌊g.br_proj_x * g.tile_size_x⌋ :=
  pyInt_of_nonneg _
    (mul_nonneg (hv.tlx_nonneg.trans hv.x_le) (by exact_mod_cast hv.w_pos.le))

theorem br_pixel_y_eq (g : Geometry) (hv : g.Valid) :
    g.br_pixel_y = ⌊g.br_proj_y * g.tile_size_y⌋ :=
  pyInt_of_nonneg _
    (mul_nonneg (hv.tly_nonneg.trans hv.y_le) (by exact_mod_cast hv.h_pos.le))

theorem pixel_x_le (g : Geometry) (hv : g.Valid) : g.tl_pixel_x ≤ g.br_pixel_x := by
  rw [g.tl_pixel_x_eq hv, g.br_pixel_x_eq hv]
  exact Int.floor_le_floor
    (mul_le_mul_of_nonneg_right hv.x_le (by exact_mod_cast hv.w_pos.le))

theorem pixel_y_le (g : Geometry) (hv : g.Valid) : g.tl_pixel_y ≤ g.br_pixel_y := by
  rw [g.tl_pixel_y_eq hv, g.br_pixel_y_eq hv]
  exact Int.floor_le_floor
    (mul_le_mul_of_nonneg_right hv.y_le (by exact_mod_cast hv.h_pos.le))

theorem img_w_eq (g : Geometry) (hv : g.Valid) :
    g.img_w = g.br_pixel_x - g.tl_pixel_x := by
  have h := g.pixel_x_le hv
  rw [img_w, abs_sub_comm, abs_of_nonneg (by omega)]

theorem img_h_eq (g : Geometry) :
    g.img_h = g.br_pixel_y - g.tl_pixel_y := rfl

theorem tile_x_bounds (g : Geometry) (hv : g.Valid) {tileX : ℤ}
    (hx : tileX ∈ g.tileRangeX) : ⌊g.tl_proj_x⌋ ≤ tileX ∧ tileX ≤ ⌊g.br_proj_x⌋ := by
  rw [tileRangeX, Finset.mem_Icc, tl_tile_x, br_tile_x,
    pyInt_of_nonneg _ hv.tlx_nonneg,
    pyInt_of_nonneg _ (hv.tlx_nonneg.trans hv.x_le)] at hx
  exact hx

theorem tile_y_bounds (g : Geometry) (hv : g.Valid) {tileY : ℤ}
    (hy : tileY ∈ g.tileRangeY) : ⌊g.tl_proj_y⌋ ≤ tileY ∧ tileY ≤ ⌊g.br_proj_y⌋ := by
  rw [tileRangeY, Finset.mem_Icc, tl_tile_y, br_tile_y,
    pyInt_of_nonneg _ hv.tly_nonneg,
    pyInt_of_nonneg _ (hv.tly_nonneg.trans hv.y_le)] at hy
  exact hy

theorem relx_bounds (g : Geometry) (hv : g.Valid) {tileX : ℤ}
    (hx : tileX ∈ g.tileRangeX) :
    -g.tile_size_x < g.tl_rel_x tileX ∧ g.tl_rel_x tileX ≤ g.img_w ∧ 0 ≤ g.img_w := by
  obtain ⟨h1, h2⟩ := g.tile_x_bounds hv hx
  have hlo : ⌊g.tl_proj_x * g.tile_size_x⌋ - g.tile_size_x < ⌊g.tl_proj_x⌋ * g.tile_size_x :=
    floor_mul_int_lt _ _ hv.w_pos
  have hlo2 : ⌊g.tl_proj_x⌋ * g.tile_size_x ≤ tileX * g.tile_size_x :=
    mul_le_mul_of_nonneg_right h1 hv.w_pos.le
  have hhi : tileX * g.tile_size_x ≤ ⌊g.br_proj_x⌋ * g.tile_size_x :=
    mul_le_mul_of_nonneg_right h2 hv.w_pos.le
  have hhi2 : ⌊g.br_proj_x⌋ * g.tile_size_x ≤ ⌊g.br_proj_x * g.tile_size_x⌋ :=
    floor_int_mul_le _ _ hv.w_pos.le
  have hw := g.img_w_eq hv
  have hple := g.pixel_x_le hv
  rw [g.tl_pixel_x_eq hv, g.br_pixel_x_eq hv] at hw hple
  rw [tl_rel_x, g.tl_pixel_x_eq hv]
  omega

theorem rely_bounds (g : Geometry) (hv : g.Valid) {tileY : ℤ}
    (hy : tileY ∈ g.tileRangeY) :
    -g.tile_size_y < g.tl_rel_y tileY ∧ g.tl_rel_y tileY ≤ g.img_h ∧ 0 ≤ g.img_h := by
  obtain ⟨h1, h2⟩ := g.tile_y_bounds hv hy
  have hlo : ⌊g.tl_proj_y * g.tile_size_y⌋ - g.tile_size_y < ⌊g.tl_proj_y⌋ * g.tile_size_y :=
    floor_mul_int_lt _ _ hv.h_pos
  have hlo2 : ⌊g.tl_proj_y⌋ * g.tile_size_y ≤ tileY * g.tile_size_y :=
    mul_le_mul_of_nonneg_right h1 hv.h_pos.le
  have hhi : tileY * g.tile_size_y ≤ ⌊g.br_proj_y⌋ * g.tile_size_y :=
    mul_le_mul_of_nonneg_right h2 hv.h_pos.le
  have hhi2 : ⌊g.br_proj_y⌋ * g.tile_size_y ≤ ⌊g.br_proj_y * g.tile_size_y⌋ :=
    floor_int_mul_le _ _ hv.h_pos.le
  have hh := g.img_h_eq
  have hple := g.pixel_y_le hv
  rw [g.tl_pixel_y_eq hv, g.br_pixel_y_eq hv] at hh hple
  rw [tl_rel_y, g.tl_pixel_y_eq hv]
  omega

end Geometry

theorem gEx1_valid : gEx1.Valid := by
  constructor <;> norm_num [gEx1]

theorem gEx1_zero_mem_x : (0 : ℤ) ∈ gEx1.tileRangeX := by
  norm_num [gEx1, Geometry.tileRangeX, Geometry.tl_tile_x, Geometry.br_tile_x,
    pyInt, Finset.mem_Icc]

theorem gEx1_zero_mem_y : (0 : ℤ) ∈ gEx1.tileRangeY := by
  norm_num [gEx1, Geometry.tileRangeY, Geometry.tl_tile_y, Geometry.br_tile_y,
    pyInt, Finset.mem_Icc]

theorem exp_two_pi_lt : Real.exp (2 * Real.pi) < 19999 := by
  have h7 : 2 * Real.pi < 7 := by
    have := Real.pi_lt_d2
    linarith
  have h1 : Real.exp (2 * Real.pi) < Real.exp 7 := Real.exp_lt_exp.mpr h7
  have h2 : Real.exp 1 ^ (7 : ℕ) = Real.exp 7 := by
    rw [← Real.exp_nat_mul]
    norm_num
  have h3 : Real.exp 1 ^ (7 : ℕ) < 2.7182818286 ^ (7 : ℕ) :=
    pow_lt_pow_left₀ Real.exp_one_lt_d9 (Real.exp_pos 1).le (by norm_num)
  have h4 : (2.7182818286 : ℝ) ^ (7 : ℕ) < 19999 := by norm_num
  rw [h2] at h3
  linarith

theorem two_pi_lt_log : 2 * Real.pi < Real.log 19999 := by
  rw [Real.lt_log_iff_exp_lt (by norm_num)]
  exact exp_two_pi_lt

theorem one_add_tanh_eq :
    1 + Real.tanh Real.pi = Real.exp (2 * Real.pi) * (1 - Real.tanh Real.pi) := by
  have hE : Real.exp (2 * Real.pi) = Real.exp Real.pi * Real.exp Real.pi := by
    rw [two_mul, Real.exp_add]
  have h2 : Real.exp Real.pi ≠ 0 := (Real.exp_pos _).ne'
  have h1 : (0 : ℝ) < Real.exp Real.pi + (Real.exp Real.pi)⁻¹ := by positivity
  rw [hE, Real.tanh_eq_sinh_div_cosh, Real.sinh_eq, Real.cosh_eq, Real.exp_neg]
  field_simp
  ring

theorem tanh_pi_nonneg : 0 ≤ Real.tanh Real.pi := by
  rw [Real.tanh_eq_sinh_div_cosh]
  apply div_nonneg _ (Real.cosh_pos _).le
  rw [Real.sinh_eq]
  have h3 : Real.exp (-Real.pi) ≤ Real.exp Real.pi :=
    Real.exp_le_exp.mpr (by linarith [Real.pi_pos])
  linarith

theorem tanh_pi_le : Real.tanh Real.pi ≤ 0.9999 := by
  have hT := one_add_tanh_eq
  have hE := exp_two_pi_lt
  have hEpos := Real.exp_pos (2 * Real.pi)
  nlinarith [tanh_pi_nonneg]

theorem log_ratio_le_two_pi (s : ℝ) (hs : |s| ≤ Real.tanh Real.pi) :
    Real.log ((1 + s) / (1 - s)) ≤ 2 * Real.pi := by
  obtain ⟨hs1, hs2⟩ := abs_le.mp hs
  have hTle := tanh_pi_le
  have h1s : (0 : ℝ) < 1 - s := by linarith
  have h1s' : (0 : ℝ) < 1 + s := by linarith
  rw [Real.log_le_iff_le_exp (by positivity), div_le_iff₀ h1s]
  have hT := one_add_tanh_eq
  nlinarith [mul_nonneg (sub_nonneg.mpr hs2)
    (by positivity : (0 : ℝ) ≤ Real.exp (2 * Real.pi) + 1)]

theorem neg_two_pi_le_log_ratio (s : ℝ) (hs : |s| ≤ Real.tanh Real.pi) :
    -(2 * Real.pi) ≤ Real.log ((1 + s) / (1 - s)) := by
  have h := log_ratio_le_two_pi (-s) (by rwa [abs_neg])
  obtain ⟨hs1, hs2⟩ := abs_le.mp hs
  have hTle := tanh_pi_le
  have h1s : (0 : ℝ) < 1 - s := by linarith
  have h1s' : (0 : ℝ) < 1 + s := by linarith
  rw [show (1 : ℝ) + -s = 1 - s by ring, show (1 : ℝ) - -s = 1 + s by ring] at h
  have e1 : Real.log ((1 - s) / (1 + s)) = -Real.log ((1 + s) / (1 - s)) := by
    rw [← inv_div, Real.log_inv]
  rw [e1] at h
  linarith

theorem siny_clamped_mono {a b : ℝ} (hab : a ≤ b) (ha : -90 ≤ a) (hb : b ≤ 90) :
    min (max (Real.sin (a * Real.pi / 180)) (-0.9999)) 0.9999
      ≤ min (max (Real.sin (b * Real.pi / 180)) (-0.9999)) 0.9999 := by
  have hpi := Real.pi_pos
  have hmem : ∀ c : ℝ, -90 ≤ c → c ≤ 90 →
      c * Real.pi / 180 ∈ Set.Icc (-(Real.pi / 2)) (Real.pi / 2) := by
    intro c h1 h2
    constructor
    · nlinarith [mul_le_mul_of_nonneg_right h1 hpi.le]
    · nlinarith [mul_le_mul_of_nonneg_right h2 hpi.le]
  have hs : Real.sin (a * Real.pi / 180) ≤ Real.sin (b * Real.pi / 180) :=
    Real.strictMonoOn_sin.monotoneOn (hmem a ha (hab.trans hb))
      (hmem b (ha.trans hab) hb) (by nlinarith)
  exact min_le_min (max_le_max hs le_rfl) le_rfl

theorem log_ratio_mono {c1 c2 : ℝ} (h1 : -0.9999 ≤ c1) (h2 : c1 ≤ c2)
    (h3 : c2 ≤ 0.9999) :
    Real.log ((1 + c1) / (1 - c1)) ≤ Real.log ((1 + c2) / (1 - c2)) := by
  have d1 : (0 : ℝ) < 1 - c1 := by linarith
  have d2 : (0 : ℝ) < 1 - c2 := by linarith
  have n1 : (0 : ℝ) < 1 + c1 := by linarith
  have hr : (1 + c1) / (1 - c1) ≤ (1 + c2) / (1 - c2) := by
    rw [div_le_div_iff₀ d1 d2]
    nlinarith
  exact Real.log_le_log (by positivity) hr

/-! The claims. -/

/-- C1 fails as stated: at `lat = 90`, `lon = 0`, `zoom = 0` (all valid
inputs) the clamped `siny` is `0.9999` and
`y = 0.5 - log(19999)/(4*pi) < 0`, because `log 19999 > 2*pi`; so `y` does
not lie in `[0, 2^zoom]`. -/
theorem C1_counterexample : (lat_lon_to_tile_coords 90 0 (2 ^ 0)).2 < 0 := by
  have h90 : (90 : ℝ) * Real.pi / 180 = Real.pi / 2 := by ring
  simp only [lat_lon_to_tile_coords, h90, Real.sin_pi_div_two]
  rw [max_eq_left (by norm_num), min_eq_right (by norm_num)]
  have harg : ((1 : ℝ) + 0.9999) / (1 - 0.9999) = 19999 := by norm_num
  rw [harg]
  have hlog := two_pi_lt_log
  have hpi := Real.pi_pos
  have hlt : (0.5 : ℝ) < Real.log 19999 / (4 * Real.pi) := by
    rw [lt_div_iff₀ (by positivity)]
    linarith
  have h20 : ((2 : ℝ)) ^ (0 : ℕ) = 1 := pow_zero 2
  rw [h20, one_mul]
  linarith

/-- C1 (amended): for every latitude in `[-90, 90]`, longitude in
`[-180, 180]` and non-negative integer zoom with `scale = 2^zoom`, the
projection returns `x = scale * (0.5 + lon/360)` and
`y = scale * (0.5 - log((1+siny)/(1-siny))/(4*pi))` with
`siny = clamp(sin(lat*pi/180), -0.9999, 0.9999)`; `x` lies in `[0, 2^zoom]`
always, `y` lies in `[0, 2^zoom]` provided `|sin(lat*pi/180)| ≤ tanh(pi)`
(the Web-Mercator band, roughly `|lat| ≤ 85.05°` — outside it `y` can leave
the range), and `x` is monotonically non-decreasing in longitude while `y`
is monotonically non-increasing in latitude. -/
theorem C1_projection_range_monotone (lat lon : ℝ) (zoom : ℕ)
    (hlat1 : -90 ≤ lat) (hlat2 : lat ≤ 90)
    (hlon1 : -180 ≤ lon) (hlon2 : lon ≤ 180) :
    (lat_lon_to_tile_coords lat lon (2 ^ zoom)).1 = 2 ^ zoom * (0.5 + lon / 360) ∧
    (lat_lon_to_tile_coords lat lon (2 ^ zoom)).2
        = 2 ^ zoom * (0.5 - Real.log
            ((1 + min (max (Real.sin (lat * Real.pi / 180)) (-0.9999)) 0.9999)
              / (1 - min (max (Real.sin (lat * Real.pi / 180)) (-0.9999)) 0.9999))
            / (4 * Real.pi)) ∧
    (0 ≤ (lat_lon_to_tile_coords lat lon (2 ^ zoom)).1 ∧
      (lat_lon_to_tile_coords lat lon (2 ^ zoom)).1 ≤ 2 ^ zoom) ∧
    (|Real.sin (lat * Real.pi / 180)| ≤ Real.tanh Real.pi →
      0 ≤ (lat_lon_to_tile_coords lat lon (2 ^ zoom)).2 ∧
        (lat_lon_to_tile_coords lat lon (2 ^ zoom)).2 ≤ 2 ^ zoom) ∧
    (∀ lon2, lon ≤ lon2 →
      (lat_lon_to_tile_coords lat lon (2 ^ zoom)).1
        ≤ (lat_lon_to_tile_coords lat lon2 (2 ^ zoom)).1) ∧
    (∀ lat2, lat ≤ lat2 → lat2 ≤ 90 →
      (lat_lon_to_tile_coords lat2 lon (2 ^ zoom)).2
        ≤ (lat_lon_to_tile_coords lat lon (2 ^ zoom)).2) := by
  have hS : (0 : ℝ) ≤ 2 ^ zoom := by positivity
  have hpi := Real.pi_pos
  refine ⟨rfl, rfl, ⟨?_, ?_⟩, ?_, ?_, ?_⟩
  · show 0 ≤ 2 ^ zoom * (0.5 + lon / 360)
    apply mul_nonneg hS
    linarith
  · show 2 ^ zoom * (0.5 + lon / 360) ≤ 2 ^ zoom
    exact mul_le_of_le_one_right hS (by linarith)
  · intro habs
    obtain ⟨h1, h2⟩ := abs_le.mp habs
    have hTle := tanh_pi_le
    have hclamp : min (max (Real.sin (lat * Real.pi / 180)) (-0.9999)) 0.9999
        = Real.sin (lat * Real.pi / 180) := by
      rw [max_eq_left (by linarith), min_eq_left (by linarith)]
    simp only [lat_lon_to_tile_coords]
    rw [hclamp]
    set s := Real.sin (lat * Real.pi / 180) with hsdef
    have hlog1 := log_ratio_le_two_pi s habs
    have hlog2 := neg_two_pi_le_log_ratio s habs
    constructor
    · apply mul_nonneg hS
      have hd : Real.log ((1 + s) / (1 - s)) / (4 * Real.pi) ≤ 0.5 := by
        rw [div_le_iff₀ (by positivity)]
        linarith
      linarith
    · apply mul_le_of_le_one_right hS
      have hd : (-0.5 : ℝ) ≤ Real.log ((1 + s) / (1 - s)) / (4 * Real.pi) := by
        rw [le_div_iff₀ (by positivity)]
        linarith
      linarith
  · intro lon2 hlon
    show 2 ^ zoom * (0.5 + lon / 360) ≤ 2 ^ zoom * (0.5 + lon2 / 360)
    exact mul_le_mul_of_nonneg_left (by linarith) hS
  · intro lat2 hl2 hl290
    have hc := siny_clamped_mono hl2 hlat1 hl290
    simp only [lat_lon_to_tile_coords]
    set c1 := min (max (Real.sin (lat * Real.pi / 180)) (-0.9999)) 0.9999 with hc1
    set c2 := min (max (Real.sin (lat2 * Real.pi / 180)) (-0.9999)) 0.9999 with hc2
    have hb1 : (-0.9999 : ℝ) ≤ c1 := le_min (le_max_right _ _) (by norm_num)
    have hb2 : c2 ≤ 0.9999 := min_le_right _ _
    have hlog := log_ratio_mono hb1 hc hb2
    have hd := (div_le_div_iff_of_pos_right (show (0 : ℝ) < 4 * Real.pi by positivity)).mpr hlog
    exact mul_le_mul_of_nonneg_left (by linarith) hS

theorem C1_projection_range_monotone_witness :
    0 ≤ (lat_lon_to_tile_coords 0 0 (2 ^ 0)).1 ∧
      (lat_lon_to_tile_coords 0 0 (2 ^ 0)).1 ≤ 2 ^ 0 :=
  (C1_projection_range_monotone 0 0 0 (by norm_num) (by norm_num) (by norm_num)
    (by norm_num)).2.2.1

/-- C2: for every pair of distinct tile rows `tileY1 ≠ tileY2` processed by
the stitch, the destination Y pixel intervals written by the two rows —
`[max(0, tileY*tileH - originY), min(imgH+1, tileY*tileH - originY + tileH))`
as half-open slices, derived only from that row's `tileY` — are disjoint, so
no two row tasks ever write to the same canvas element. -/
theorem C2_row_bands_disjoint (g : Geometry) (hH : 0 < g.tile_size_y)
    (tileY1 tileY2 : ℤ) (hne : tileY1 ≠ tileY2) :
    Disjoint (g.rowBand tileY1) (g.rowBand tileY2) := by
  have key : ∀ s1 s2 : ℤ, s1 < s2 → ∀ a : ℤ,
      a ∈ g.rowBand s1 → a ∈ g.rowBand s2 → False := by
    intro s1 s2 hlt a ha1 ha2
    simp only [Geometry.rowBand, Set.mem_Ico, Geometry.img_y_l, Geometry.img_y_r,
      Geometry.br_rel_y, Geometry.tl_rel_y] at ha1 ha2
    have hmul : s1 * g.tile_size_y + g.tile_size_y ≤ s2 * g.tile_size_y := by
      have h1 : (s1 + 1) * g.tile_size_y ≤ s2 * g.tile_size_y :=
        mul_le_mul_of_nonneg_right (by omega) hH.le
      nlinarith
    set u := s1 * g.tile_size_y with hu
    set v := s2 * g.tile_size_y with hvv
    omega
  rw [Set.disjoint_left]
  intro a ha1 ha2
  rcases lt_or_gt_of_ne hne with h | h
  · exact key _ _ h a ha1 ha2
  · exact key _ _ h a ha2 ha1

theorem C2_row_bands_disjoint_witness :
    0 < gEx1.tile_size_y ∧ Disjoint (gEx1.rowBand 0) (gEx1.rowBand 1) :=
  ⟨by norm_num [gEx1],
   C2_row_bands_disjoint gEx1 (by norm_num [gEx1]) 0 1 (by norm_num)⟩

/-- C3 as stated is false: in the planned tile range the computed destination
right bound can exceed the canvas width.  With projected corners `(0,0)` and
`(1,1)` and 256-pixel tiles, tile `x = 1` is in the planned range and its
`img_x_r = min(img_w + 1, br_rel_x) = 257` exceeds `img_w = 256`. -/
theorem C3_counterexample :
    (1 : ℤ) ∈ gEx1.tileRangeX ∧ ¬(gEx1.img_x_r 1 ≤ gEx1.img_w) := by
  constructor
  · norm_num [gEx1, Geometry.tileRangeX, Geometry.tl_tile_x, Geometry.br_tile_x,
      pyInt, Finset.mem_Icc]
  · norm_num [gEx1, Geometry.img_x_r, Geometry.br_rel_x, Geometry.tl_rel_x,
      Geometry.img_w, Geometry.tl_pixel_x, Geometry.br_pixel_x, pyInt]

/-- C3 (amended): for every tile in the planned tile range the computed
destination bounds satisfy `0 ≤ img_x_l ≤ img_x_r ≤ canvasW + 1` and
`0 ≤ img_y_l ≤ img_y_r ≤ canvasH + 1` — the code clips the right and bottom
bounds to `img_w + 1` and `img_h + 1`, one past the canvas extent, not to the
canvas extent itself; every destination rect still has non-negative width and
height. -/
theorem C3_dest_rect_in_bounds (g : Geometry) (hv : g.Valid) (tileX tileY : ℤ)
    (hx : tileX ∈ g.tileRangeX) (hy : tileY ∈ g.tileRangeY) :
    (0 ≤ g.img_x_l tileX ∧ g.img_x_l tileX ≤ g.img_x_r tileX ∧
      g.img_x_r tileX ≤ g.img_w + 1) ∧
    (0 ≤ g.img_y_l tileY ∧ g.img_y_l tileY ≤ g.img_y_r tileY ∧
      g.img_y_r tileY ≤ g.img_h + 1) := by
  obtain ⟨ha, hb, hc⟩ := g.relx_bounds hv hx
  obtain ⟨hd, he, hf⟩ := g.rely_bounds hv hy
  have hW := hv.w_pos
  have hH := hv.h_pos
  unfold Geometry.img_x_l Geometry.img_x_r Geometry.br_rel_x
    Geometry.img_y_l Geometry.img_y_r Geometry.br_rel_y
  omega

theorem C3_dest_rect_in_bounds_witness :
    0 ≤ gEx1.img_x_l 0 ∧ gEx1.img_x_l 0 ≤ gEx1.img_x_r 0 ∧
      gEx1.img_x_r 0 ≤ gEx1.img_w + 1 :=
  (C3_dest_rect_in_bounds gEx1 gEx1_valid 0 0 gEx1_zero_mem_x gEx1_zero_mem_y).1

/-- C4 as stated is false: the canvas pixel origin computed by the code is
`int(topLeft.x * tileW)` (the floor of the scaled coordinate), not
`floor(topLeft.x) * tileW`.  With `topLeft.x = 1/2` and `tileW = 256` the code
computes 128 while the claim computes 0. -/
theorem C4_counterexample :
    gEx2.tl_pixel_x ≠ ⌊gEx2.tl_proj_x⌋ * gEx2.tile_size_x := by
  norm_num [gEx2, Geometry.tl_pixel_x, pyInt]

/-- C4 (amended): the pixel origin of the canvas is
`(floor(topLeft.x * tileW), floor(topLeft.y * tileH))` — the scaled projected
coordinate truncated to an integer, which for the non-negative projected
corners is its floor — and for every tile the pixel offset relative to the
canvas origin is `relX = tileX*tileW - pixelOriginX` and
`relY = tileY*tileH - pixelOriginY`. -/
theorem C4_pixel_origin (g : Geometry) (hv : g.Valid) (tileX tileY : ℤ) :
    g.tl_pixel_x = ⌊g.tl_proj_x * g.tile_size_x⌋ ∧
    g.tl_pixel_y = ⌊g.tl_proj_y * g.tile_size_y⌋ ∧
    g.tl_rel_x tileX = tileX * g.tile_size_x - g.tl_pixel_x ∧
    g.tl_rel_y tileY = tileY * g.tile_size_y - g.tl_pixel_y :=
  ⟨g.tl_pixel_x_eq hv, g.tl_pixel_y_eq hv, rfl, rfl⟩

theorem C4_pixel_origin_witness :
    gEx1.tl_pixel_x = ⌊gEx1.tl_proj_x * gEx1.tile_size_x⌋ :=
  (C4_pixel_origin gEx1 gEx1_valid 0 0).1

/-- C5: the allocated canvas has width
`canvasW = |pixelX(topLeft) - pixelX(bottomRight)|` and height
`canvasH = pixelY(bottomRight) - pixelY(topLeft)`, where the pixel coordinate
of a corner is its projected coordinate scaled by the probed tile width/height
(and truncated to an integer, the floor for these non-negative values). -/
theorem C5_canvas_dims (g : Geometry) (hv : g.Valid) :
    g.img_w = |⌊g.tl_proj_x * g.tile_size_x⌋ - ⌊g.br_proj_x * g.tile_size_x⌋| ∧
    g.img_h = ⌊g.br_proj_y * g.tile_size_y⌋ - ⌊g.tl_proj_y * g.tile_size_y⌋ := by
  constructor
  · rw [Geometry.img_w, g.tl_pixel_x_eq hv, g.br_pixel_x_eq hv]
  · rw [Geometry.img_h, g.tl_pixel_y_eq hv, g.br_pixel_y_eq hv]

theorem C5_canvas_dims_witness :
    gEx1.img_w = |⌊gEx1.tl_proj_x * gEx1.tile_size_x⌋ - ⌊gEx1.br_proj_x * gEx1.tile_size_x⌋| :=
  (C5_canvas_dims gEx1 gEx1_valid).1

/-- C6: the fetched tile index range is
`tileRangeX = [floor(topLeft.x) .. floor(bottomRight.x)]` and
`tileRangeY = [floor(topLeft.y) .. floor(bottomRight.y)]`, both inclusive
(the projected corner coordinates being non-negative, `int()` is the floor),
and the precomputed total used for progress equals
`(count of tileRangeX) * (count of tileRangeY)`. -/
theorem C6_tile_ranges (g : Geometry) (hv : g.Valid) :
    g.tileRangeX = Finset.Icc ⌊g.tl_proj_x⌋ ⌊g.br_proj_x⌋ ∧
    g.tileRangeY = Finset.Icc ⌊g.tl_proj_y⌋ ⌊g.br_proj_y⌋ ∧
    g.tiles_total = (g.tileRangeX.card : ℤ) * (g.tileRangeY.card : ℤ) := by
  have hx0 : g.tl_tile_x = ⌊g.tl_proj_x⌋ := pyInt_of_nonneg _ hv.tlx_nonneg
  have hx1 : g.br_tile_x = ⌊g.br_proj_x⌋ :=
    pyInt_of_nonneg _ (hv.tlx_nonneg.trans hv.x_le)
  have hy0 : g.tl_tile_y = ⌊g.tl_proj_y⌋ := pyInt_of_nonneg _ hv.tly_nonneg
  have hy1 : g.br_tile_y = ⌊g.br_proj_y⌋ :=
    pyInt_of_nonneg _ (hv.tly_nonneg.trans hv.y_le)
  have hax : g.tl_tile_x ≤ g.br_tile_x := by
    rw [hx0, hx1]
    exact Int.floor_le_floor hv.x_le
  have hay : g.tl_tile_y ≤ g.br_tile_y := by
    rw [hy0, hy1]
    exact Int.floor_le_floor hv.y_le
  refine ⟨?_, ?_, ?_⟩
  · rw [Geometry.tileRangeX, hx0, hx1]
  · rw [Geometry.tileRangeY, hy0, hy1]
  · rw [Geometry.tiles_total, Geometry.tileRangeX, Geometry.tileRangeY,
      Int.card_Icc, Int.card_Icc,
      Int.toNat_of_nonneg (by omega), Int.toNat_of_nonneg (by omega)]
    ring

theorem C6_tile_ranges_witness :
    gEx1.tiles_total = (gEx1.tileRangeX.card : ℤ) * (gEx1.tileRangeY.card : ℤ) :=
  (C6_tile_ranges gEx1 gEx1_valid).2.2

/-- C7: whenever the probe fetch or decode of the representative tile fails —
which the source observes as `cv2.imdecode` returning `None` (a non-2xx error
body, a corrupt payload or an unsupported format) — `get_image_info` returns
the fallback `(256, 256, 1)` instead of failing the run, and on a successful
decode it returns the decoded tile's actual width, height and channel count. -/
theorem C7_probe_fallback (d : DecodedShape) :
    (d = none → get_image_info d = (256, 256, 1)) ∧
    (∀ h w c, d = some (h, w, c) → get_image_info d = (w, h, c.getD 1)) := by
  constructor
  · rintro rfl
    rfl
  · rintro h w c rfl
    rfl

theorem C7_probe_fallback_witness :
    get_image_info none = (256, 256, 1) ∧
    get_image_info (some (512, 384, some 3)) = (384, 512, 3) :=
  ⟨(C7_probe_fallback none).1 rfl,
   (C7_probe_fallback (some (512, 384, some 3))).2 512 384 (some 3) rfl⟩

theorem build_row_progress_eq {α : Type} (d : ℤ → Option α) (xs : List ℤ)
    (cur : ℕ) :
    build_row_progress d xs cur
      = cur + (xs.filter (fun x => (d x).isSome)).length := by
  induction xs generalizing cur with
  | nil => simp [build_row_progress]
  | cons x rest ih =>
    by_cases h : (d x).isSome
    · simp [build_row_progress, List.filter_cons, h, ih]
      omega
    · simp [build_row_progress, List.filter_cons, h, ih]

theorem all_rows_progress_foldl {α : Type} (d : ℤ → ℤ → Option α)
    (cols : List ℤ) (rows : List ℤ) (init : ℕ) :
    rows.foldl (fun cur y => build_row_progress (fun x => d x y) cols cur) init
      = init
        + (rows.map (fun y => (cols.filter (fun x => (d x y).isSome)).length)).sum := by
  induction rows generalizing init with
  | nil => simp
  | cons y rest ih =>
    simp only [List.foldl_cons, List.map_cons, List.sum_cons]
    rw [build_row_progress_eq, ih]
    omega

/-- C8 fails as stated: a tile whose decode fails reports no unit of progress
(`tiles_current += 1` sits inside `if tile is not None:`), so a one-tile row
whose only tile fails ends with 0 progress reports, not the row's tile count
of 1. -/
theorem C8_counterexample :
    build_row_progress (fun _ : ℤ => (none : Option Unit)) [0] 0
      ≠ ([0] : List ℤ).length := by
  decide

/-- C8 (amended): exactly one unit of progress is reported per successfully
decoded tile and none for a tile whose fetch/decode fails, so after all rows
complete the number of progress reports equals the number of successfully
decoded tiles — at most, not always equal to, the precomputed total. -/
theorem C8_progress_counts_successes {α : Type} (d : ℤ → ℤ → Option α)
    (rows cols : List ℤ) :
    all_rows_progress d rows cols
        = (rows.map (fun y => (cols.filter (fun x => (d x y).isSome)).length)).sum ∧
    all_rows_progress d rows cols ≤ rows.length * cols.length := by
  have h := all_rows_progress_foldl d cols rows 0
  rw [Nat.zero_add] at h
  rw [all_rows_progress, h]
  refine ⟨rfl, ?_⟩
  have hb : ∀ n ∈ rows.map (fun y => (cols.filter (fun x => (d x y).isSome)).length),
      n ≤ cols.length := by
    intro n hn
    obtain ⟨y, _, rfl⟩ := List.mem_map.mp hn
    exact List.length_filter_le _ _
  have := List.sum_le_card_nsmul _ cols.length hb
  simpa [List.length_map, smul_eq_mul] using this

/-- C9 fails as stated: an encoder failure is caught inside
`download_map_region` (`except ... print ... return`), the function returns
normally, `main` completes its `try` body and returns 0, so the process exit
status is 0, not non-zero. -/
theorem C9_counterexample :
    main_exit (download_region_outcome (Except.error "could not write output file"))
      = 0 := rfl

/-- C9 (amended): if the encoder fails to write the output file, the failure
is reported together with its underlying cause, but the exception is swallowed
inside `download_map_region`, which returns normally, and the program
terminates with exit status 0 rather than a non-zero status. -/
theorem C9_encoder_failure_swallowed (e : String) :
    e ∈ save_image (Except.error e) ∧
    main_exit (download_region_outcome (Except.error e)) = 0 :=
  ⟨by simp [save_image], rfl⟩

/-- C10: for every tile in the planned range (whose decoded dimensions equal
the probed tile size, so the source array is `tileH × tileW`), the destination
slice `img[img_y_l:img_y_r, img_x_l:img_x_r]` and the source crop
`tile[cr_y_l:cr_y_r, cr_x_l:cr_x_r]` select exactly the same number of rows
and of columns under half-open clamping slice semantics (all bounds are
non-negative, so no Python wrap-around occurs), and the written destination
indices stay inside the canvas — given `canvasW > 0` and `canvasH > 0`. -/
theorem C10_copy_shape_and_bounds (g : Geometry) (hv : g.Valid)
    (hw : 0 < g.img_w) (hh : 0 < g.img_h) (tileX tileY : ℤ)
    (hx : tileX ∈ g.tileRangeX) (hy : tileY ∈ g.tileRangeY) :
    npLen (g.img_x_l tileX) (g.img_x_r tileX) g.img_w
        = npLen (g.cr_x_l tileX) (g.cr_x_r tileX) g.tile_size_x ∧
    npLen (g.img_y_l tileY) (g.img_y_r tileY) g.img_h
        = npLen (g.cr_y_l tileY) (g.cr_y_r tileY) g.tile_size_y ∧
    (0 ≤ g.img_x_l tileX ∧ 0 ≤ g.img_x_r tileX ∧
     0 ≤ g.cr_x_l tileX ∧ 0 ≤ g.cr_x_r tileX ∧
     0 ≤ g.img_y_l tileY ∧ 0 ≤ g.img_y_r tileY ∧
     0 ≤ g.cr_y_l tileY ∧ 0 ≤ g.cr_y_r tileY) ∧
    Set.Ico (min (g.img_x_l tileX) g.img_w) (min (g.img_x_r tileX) g.img_w)
      ⊆ Set.Ico 0 g.img_w ∧
    Set.Ico (min (g.img_y_l tileY) g.img_h) (min (g.img_y_r tileY) g.img_h)
      ⊆ Set.Ico 0 g.img_h := by
  obtain ⟨ha, hb, _⟩ := g.relx_bounds hv hx
  obtain ⟨hd, he, _⟩ := g.rely_bounds hv hy
  have hW := hv.w_pos
  have hH := hv.h_pos
  unfold npLen Geometry.img_x_l Geometry.img_x_r Geometry.cr_x_l Geometry.cr_x_r
    Geometry.img_y_l Geometry.img_y_r Geometry.cr_y_l Geometry.cr_y_r
    Geometry.br_rel_x Geometry.br_rel_y
  refine ⟨by omega, by omega, by omega, ?_, ?_⟩
  · intro a haa
    simp only [Set.mem_Ico] at haa ⊢
    omega
  · intro a haa
    simp only [Set.mem_Ico] at haa ⊢
    omega

theorem C10_copy_shape_and_bounds_witness :
    npLen (gEx1.img_x_l 0) (gEx1.img_x_r 0) gEx1.img_w
      = npLen (gEx1.cr_x_l 0) (gEx1.cr_x_r 0) gEx1.tile_size_x :=
  (C10_copy_shape_and_bounds gEx1 gEx1_valid
    (by norm_num [gEx1, Geometry.img_w, Geometry.tl_pixel_x, Geometry.br_pixel_x, pyInt])
    (by norm_num [gEx1, Geometry.img_h, Geometry.tl_pixel_y, Geometry.br_pixel_y, pyInt])
    0 0 gEx1_zero_mem_x gEx1_zero_mem_y).1

end MapTileDownloader
